/-
Verification of the potential-outcomes experiment-data store and permutation
simulation engine.

Shallow embedding of the TypeScript source:
  * `contexts/SimulationContext/utils.ts` — test statistics (`rank`,
    `differenceInMeans`, `wilcoxonRankSum`), `calculatePValue`, validators;
  * `contexts/SimulationContext/reducer.ts` — `simulationReducer`, the single
    mutation entry point with linear undo/redo history;
  * `contexts/SimulationContext/SimulationProvider.tsx` — `runSimulation`,
    the incremental Monte Carlo loop.

JavaScript numbers are modelled as exact rationals (ℚ); `null`/`undefined`
cells are modelled by `Option`; a JS `NaN` result is modelled by `Option.none`;
code that throws is modelled by `Except`.
-/
import Mathlib

/-! ## Data model

`DataRow` mirrors the `DataRow` type: an ordered sequence of cells
(`number | null`), a group `assignment` (`number | null`, an integer which the
store can drive negative — see `REMOVE_COLUMN`), and an optional `block` id. -/

structure DataRow where
  data : List (Option ℚ)
  assignment : Option ℤ
  block : Option String
deriving DecidableEq, Repr

structure ColumnDef where
  name : String
  color : String
deriving DecidableEq, Repr

structure UserDataState where
  columns : List ColumnDef
  rows : List DataRow
  colorStack : List String
deriving DecidableEq, Repr

/-- Modelled from the spec: `emptyRow` is imported by the reducer from the part
of `utils.ts` that is not in the sources; §4.1 describes the appended row as "a
fresh empty row" / "a brand-new empty staging row", i.e. all cells absent and
no assignment or block yet. -/
def emptyRow (columnCount : ℕ) : DataRow :=
  { data := List.replicate columnCount none, assignment := none, block := none }

/-! ## Test statistics (`utils.ts`) -/

/-- Insertion of `a` into a `le`-sorted list, before the first element it
`le`-precedes: an executable stable sort.  Everywhere the source sorts (JS
`Array.prototype.sort`, stable), the sort keys are pairwise distinct —
value/index pairs, or deduplicated keys — so any correct sort produces the
list the source produces. -/
def insertSorted (le : α → α → Bool) (a : α) : List α → List α
  | [] => [a]
  | b :: l => if le a b then a :: b :: l else b :: insertSorted le a l

def sortByB (le : α → α → Bool) : List α → List α
  | [] => []
  | a :: l => insertSorted le a (sortByB le l)

/-- The `rank` function: decorate each value with its index, sort stably by
value (JS `sort` with comparator `a.value - b.value` is stable), then walk the
sorted list assigning each element the 1-based position of the first element of
its run of equal values. `rankWalk i currentRank prev sorted` returns the
association list from original index to rank. -/
def rankWalk : ℕ → ℕ → Option ℚ → List (ℚ × ℕ) → List (ℕ × ℕ)
  | _, _, _, [] => []
  | i, currentRank, prev, (v, idx) :: rest =>
      let newRank := match prev with
        | some p => if v ≠ p then i + 1 else currentRank
        | none => currentRank
      (idx, newRank) :: rankWalk (i + 1) newRank (some v) rest

def rank (values : List ℚ) : List ℚ :=
  let sorted := sortByB
    (fun a b => decide (a.1 < b.1) || (a.1 == b.1 && decide (a.2 ≤ b.2)))
    (values.enum.map (fun p => (p.2, p.1)))
  let ranks := rankWalk 0 1 none sorted
  (List.range values.length).map (fun i => (((ranks.lookup i).getD 1 : ℕ) : ℚ))

/-- Keeps the first occurrence of each element, in order — the insertion order
of keys in a JS object literal built by `reduce`. -/
def distinctFirstAux [BEq α] (seen : List α) : List α → List α
  | [] => []
  | a :: l =>
      if seen.contains a then distinctFirstAux seen l
      else a :: distinctFirstAux (a :: seen) l

def distinctFirst [BEq α] (l : List α) : List α := distinctFirstAux [] l

/-- Grouping for `differenceInMeans`: the JS `reduce` keys the accumulator
record by `row.assignment` and stores `row.data[row.assignment]` whenever that
cell is a number (rows with an absent, negative or out-of-range assignment
contribute nothing since the lookup yields `undefined`).  `Object.values`
returns array-index-like keys in ascending numeric order. -/
def dimPairs (data : List DataRow) : List (ℤ × ℚ) :=
  data.filterMap (fun row =>
    match row.assignment with
    | none => none
    | some a =>
        if 0 ≤ a then
          match row.data.get? a.toNat with
          | some (some v) => some (a, v)
          | _ => none
        else none)

def dimGroups (data : List DataRow) : List (List ℚ) :=
  let pairs := dimPairs data
  let keys := sortByB (fun a b => decide (a ≤ b)) (distinctFirst (pairs.map (·.1)))
  keys.map (fun a => (pairs.filter (fun p => p.1 == a)).map (·.2))

def differenceInMeans (data : List DataRow) : ℚ :=
  if data.length = 0 then 0 else
  let groups := dimGroups data
  let groupMeans := groups.map (fun group =>
    if 0 < group.length then group.sum / (group.length : ℚ) else 0)
  if 2 ≤ groupMeans.length then
    (groupMeans.get? 1).getD 0 - (groupMeans.get? 0).getD 0
  else 0

/-- Grouping for `wilcoxonRankSum`: keyed by `row.assignment`, with
`row.data[0]` as the value whenever that cell is a number.  Non-negative
integer keys come first in ascending order (JS array-index key order); a `null`
or negative assignment produces a string key, listed afterwards in first-
insertion order. -/
def wilcoxonPairs (data : List DataRow) : List (Option ℤ × ℚ) :=
  data.filterMap (fun row =>
    match row.data.head? with
    | some (some v) => some (row.assignment, v)
    | _ => none)

def wilcoxonGroups (data : List DataRow) : List (List ℚ) :=
  let pairs := wilcoxonPairs data
  let intKeys := sortByB (fun a b => decide (a ≤ b))
    (distinctFirst (pairs.filterMap
      (fun p => p.1.bind (fun a => if 0 ≤ a then some a else none))))
  let strKeys := distinctFirst (pairs.filterMap (fun p =>
    match p.1 with
    | none => some (none : Option ℤ)
    | some a => if a < 0 then some (some a) else none))
  intKeys.map (fun a => (pairs.filter (fun p => p.1 == some a)).map (·.2)) ++
    strKeys.map (fun k => (pairs.filter (fun p => p.1 == k)).map (·.2))

/-- `wilcoxonRankSum` throws (`Except.error`) unless the grouping yields
exactly two groups; the empty input short-circuits to `0` before any grouping
happens. -/
def wilcoxonRankSum (data : List DataRow) : Except String ℚ :=
  if data.length = 0 then .ok 0 else
  let groupValues := wilcoxonGroups data
  if groupValues.length ≠ 2 then
    .error "Wilcoxon rank-sum test requires exactly two groups."
  else
    let group1 := (groupValues.get? 0).getD []
    let group2 := (groupValues.get? 1).getD []
    let combined := group1 ++ group2
    let ranks := rank combined
    let rankSumGroup1 := (ranks.take group1.length).sum
    let n1 : ℚ := group1.length
    let n2 : ℚ := group2.length
    let U1 := rankSumGroup1 - n1 * (n1 + 1) / 2
    let U2 := n1 * n2 - U1
    .ok (min U1 U2)

inductive PValueType where
  | twoTailed
  | leftTailed
  | rightTailed
deriving DecidableEq, Repr

/-- `calculatePValue`, parametrised by the selected statistic's `compute`
function `f` (the source dispatches `testStatistics[testStatistic].function`).
The JS version divides by `simulationResults.length` unconditionally and so
returns `NaN` (modelled `none`) on an empty result list. -/
def calculatePValue (f : List DataRow → ℚ) (originalTestStatistic : ℚ)
    (simulationResults : List (List DataRow)) (pValueType : PValueType) :
    Option ℚ :=
  let totalSimulations := simulationResults.length
  let extremeCount := match pValueType with
    | .twoTailed => (simulationResults.filter
        (fun result => decide (|f result| ≥ |originalTestStatistic|))).length
    | .leftTailed => (simulationResults.filter
        (fun result => decide (f result ≤ originalTestStatistic))).length
    | .rightTailed => (simulationResults.filter
        (fun result => decide (f result ≥ originalTestStatistic))).length
  if totalSimulations = 0 then none
  else some ((extremeCount : ℚ) / (totalSimulations : ℚ))

/-! ## Experiment data store (`reducer.ts`)

The store state mirrors `SimulationState`: the current table under
`data.userData`, the linear history in the top-level `past`/`future` stacks,
settings, the control flag, accumulated results, and the last error. -/

inductive ExperimentalTestStatistic where
  | differenceInMeans
  | wilcoxonRankSum
deriving DecidableEq, Repr

structure TestStatisticMeta where
  name : String
  supportsMultipleTreatments : Bool
deriving DecidableEq, Repr

/-- The `testStatistics` registry metadata; neither statistic supports
multiple treatment groups. -/
def testStatisticsMeta : ExperimentalTestStatistic → TestStatisticMeta
  | .differenceInMeans => ⟨"Difference in Means", false⟩
  | .wilcoxonRankSum => ⟨"Wilcoxon Rank-Sum", false⟩

/-- `Object.keys(testStatistics)` in declaration order. -/
def allTestStatistics : List ExperimentalTestStatistic :=
  [.differenceInMeans, .wilcoxonRankSum]

structure SettingsState where
  simulationSpeed : ℤ
  selectedTestStatistic : ExperimentalTestStatistic
  totalSimulations : ℤ
  pValueType : PValueType
  blockingEnabled : Bool
deriving DecidableEq, Repr

structure ControlState where
  isSimulating : Bool
deriving DecidableEq, Repr

structure ResultsState where
  simulationResults : List (List DataRow)
  pValue : Option ℚ
  observedStatistic : Option ℚ
deriving DecidableEq, Repr

structure ErrorState where
  message : String
deriving DecidableEq, Repr

structure DataState where
  userData : UserDataState
deriving DecidableEq, Repr

structure SimulationState where
  data : DataState
  past : List UserDataState
  future : List UserDataState
  settings : SettingsState
  control : ControlState
  results : ResultsState
  error : Option ErrorState
deriving DecidableEq, Repr

/-- Modelled from the spec: `INITIAL_STATE.data.userData` lives in
`constants.ts`, absent from the sources; §3 Lifecycle describes it as the
"default 2-column, 1-staging-row template". -/
def initialUserData : UserDataState :=
  { columns := [⟨"Control", "text-blue-500"⟩, ⟨"Treatment", "text-red-500"⟩],
    rows := [emptyRow 2],
    colorStack := [] }

/-- Action payloads of `SimulationAction`.  Indices are natural numbers; the
source's `< 0` guards reject negative indices, which a `ℕ` cannot carry. -/
inductive SimulationAction where
  | setUserData (payload : Option UserDataState)
  | resetUserData
  | emptyUserData
  | addRow
  | deleteRow (payload : ℕ)
  | updateCell (rowIndex : ℕ) (columnIndex : ℕ) (value : Option ℚ)
  | setBlock (rowIndex : ℕ) (block : Option String)
  | setAssignment (rowIndex : ℕ) (assignment : Option ℕ)
  | renameColumn (index : ℕ) (newName : String)
  | addColumn (payload : String)
  | removeColumn (payload : ℕ)
  | setSimulationSpeed (payload : ℤ)
  | setSelectedTestStatistic (payload : ExperimentalTestStatistic)
  | setTotalSimulations (payload : ℤ)
  | setPValueType (payload : PValueType)
  | startSimulation
  | pauseSimulation
  | clearSimulationData
  | setSimulationResults (payload : List (List DataRow))
  | setPValue (payload : ℚ)
  | setObservedStatistic (payload : Option ℚ)
  | setBlockingEnabled (payload : Bool)
  | undo
  | redo

/-- Validators from `utils.ts`. -/
def validateSimulationSpeed (speed : ℤ) : Bool := 1 ≤ speed && speed ≤ 100

def validateTotalSimulations (total : ℤ) : Bool := 1 ≤ total && total ≤ 10000

/-- The blank-name guard `!name || name.trim() === ''`: a name is rejected
exactly when every character is whitespace (the empty string included). -/
def isBlankName (s : String) : Bool := s.toList.all Char.isWhitespace

/-- The `updateHistory` helper of the reducer: push the pre-mutation table onto
`past`, clear `future`, install the new table. -/
def updateHistory (state : SimulationState) (newUserData : UserDataState) :
    SimulationState :=
  { state with
    past := state.past ++ [state.data.userData],
    future := [],
    data := { userData := newUserData } }

def setStateError (state : SimulationState) (message : String) :
    SimulationState :=
  { state with error := some ⟨message⟩ }

/-- The `ADD_ROW` case executes `newRows[newRows.length - 1].assignment = 1` on
a *shallow* copy of the rows array, mutating the staging-row object itself in
place.  `forceLastAssignment` is that mutation's effect on the row list. -/
def forceLastAssignment : List DataRow → List DataRow
  | [] => []
  | [r] => [{ r with assignment := some 1 }]
  | r :: rs => r :: forceLastAssignment rs

/-- The reducer.  Every case is translated clause-for-clause from
`simulationReducer` in `reducer.ts`.  One point deserves care: because
`ADD_ROW` mutates the shared staging-row object in place *before*
`updateHistory` captures `state.data.userData`, the snapshot pushed onto
`past` already carries `assignment = 1` on its last row; the embedding pushes
that corrupted snapshot explicitly. -/
def simulationReducer (state : SimulationState) (action : SimulationAction) :
    SimulationState :=
  match action with
  | .setUserData payload =>
    match payload with
    | none => setStateError state "User data payload is required"
    | some u => { updateHistory state u with error := none }
  | .resetUserData =>
    { updateHistory state initialUserData with
      results := { simulationResults := [], pValue := none,
                   observedStatistic := none },
      error := none }
  | .emptyUserData =>
    let u := state.data.userData
    let emptyRows := u.rows.map (fun row =>
      { data := u.columns.map (fun _ => (none : Option ℚ)),
        assignment := row.assignment,
        block := none })
    { updateHistory state { u with rows := emptyRows } with error := none }
  | .addRow =>
    let u := state.data.userData
    let newRow := emptyRow u.columns.length
    let mutatedRows := forceLastAssignment u.rows
    { state with
      past := state.past ++ [{ u with rows := mutatedRows }],
      future := [],
      data := { userData := { u with rows := mutatedRows ++ [newRow] } },
      error := none }
  | .deleteRow payload =>
    let u := state.data.userData
    if payload ≥ u.rows.length then
      setStateError state ("Invalid row index " ++ toString payload)
    else
      let updatedRows := u.rows.eraseIdx payload
      { updateHistory state { u with rows := updatedRows } with error := none }
  | .updateCell rowIndex columnIndex value =>
    let u := state.data.userData
    if rowIndex ≥ u.rows.length then
      setStateError state ("Invalid row index " ++ toString rowIndex)
    else if columnIndex ≥ u.columns.length then
      setStateError state ("Invalid column index " ++ toString columnIndex)
    else
      let isLastRow : Bool := rowIndex == u.rows.length - 1
      let row := (u.rows.get? rowIndex).getD (emptyRow 0)
      let splicedRow := { row with
        data := row.data.take columnIndex ++ [value] ++
          row.data.drop (columnIndex + 1) }
      let updatedRow :=
        if isLastRow then { splicedRow with assignment := some (columnIndex : ℤ) }
        else splicedRow
      let updatedRows := u.rows.set rowIndex updatedRow
      let finalRows :=
        if isLastRow && value.isSome then
          updatedRows ++ [emptyRow u.columns.length]
        else updatedRows
      { updateHistory state { u with rows := finalRows } with error := none }
  | .setBlock rowIndex block =>
    let u := state.data.userData
    if rowIndex ≥ u.rows.length then
      setStateError state ("Invalid row index " ++ toString rowIndex)
    else
      let row := (u.rows.get? rowIndex).getD (emptyRow 0)
      let updatedRows := u.rows.set rowIndex { row with block := block }
      { updateHistory state { u with rows := updatedRows } with error := none }
  | .setAssignment rowIndex assignment =>
    let u := state.data.userData
    if rowIndex ≥ u.rows.length then
      setStateError state ("Invalid row index " ++ toString rowIndex)
    else if (match assignment with
             | some a => decide (a ≥ u.columns.length)
             | none => false) then
      setStateError state "Invalid assignment"
    else
      let isLastRow : Bool := rowIndex == u.rows.length - 1
      let row := (u.rows.get? rowIndex).getD (emptyRow 0)
      let updatedRows := u.rows.set rowIndex
        { row with assignment :=
            assignment.map (fun a => ((a % u.columns.length : ℕ) : ℤ)) }
      let finalRows :=
        if isLastRow then updatedRows ++ [emptyRow u.columns.length]
        else updatedRows
      { updateHistory state { u with rows := finalRows } with error := none }
  | .renameColumn index newName =>
    let u := state.data.userData
    if index ≥ u.columns.length then
      setStateError state ("Invalid column index " ++ toString index)
    else if isBlankName newName then
      setStateError state "New column name cannot be empty"
    else
      let col := (u.columns.get? index).getD ⟨"", ""⟩
      let newColumns := u.columns.set index { col with name := newName }
      { updateHistory state { u with columns := newColumns } with error := none }
  | .addColumn payload =>
    let u := state.data.userData
    if isBlankName payload then
      setStateError state "New column name cannot be empty"
    else
      let newColor := match u.colorStack.head? with
        | some c => if c = "" then "text-gray-500" else c
        | none => "text-gray-500"
      let newColorStack := u.colorStack.drop 1
      let rowsWithNewColumn := u.rows.map (fun row =>
        { row with data := row.data ++ [none] })
      let newColumns := u.columns ++ [⟨payload, newColor⟩]
      let newUserData :=
        { u with
          rows := rowsWithNewColumn
          columns := newColumns
          colorStack := newColorStack }
      let newState := { updateHistory state newUserData with error := none }
      if u.columns.length = 2 ∧ newColumns.length = 3 then
        if (testStatisticsMeta
              state.settings.selectedTestStatistic).supportsMultipleTreatments
        then newState
        else
          match allTestStatistics.find?
              (fun key => (testStatisticsMeta key).supportsMultipleTreatments)
            with
          | some newTestStatistic =>
            { newState with settings :=
                { newState.settings with
                  selectedTestStatistic := newTestStatistic } }
          | none => newState
      else newState
  | .removeColumn payload =>
    let u := state.data.userData
    if payload ≥ u.columns.length then
      setStateError state ("Invalid column index " ++ toString payload)
    else if u.columns.length ≤ 2 then
      setStateError state "Cannot remove column when there are only two columns"
    else
      let removedColumn := (u.columns.get? payload).getD ⟨"", ""⟩
      let rowsWithColumnRemoved := u.rows.map (fun row =>
        { row with
          data := row.data.eraseIdx payload,
          assignment := match row.assignment with
            | none => none
            | some a => if a ≥ (payload : ℤ) then some (a - 1) else some a })
      let updatedColumns := u.columns.eraseIdx payload
      let updatedColorStack := u.colorStack ++ [removedColumn.color]
      let newUserData :=
        { u with
          rows := rowsWithColumnRemoved
          columns := updatedColumns
          colorStack := updatedColorStack }
      { updateHistory state newUserData with error := none }
  | .setSimulationSpeed payload =>
    if !validateSimulationSpeed payload then
      setStateError state ("Invalid simulation speed " ++ toString payload)
    else
      { state with
        settings := { state.settings with simulationSpeed := payload },
        error := none }
  | .setSelectedTestStatistic payload =>
    { state with
      settings := { state.settings with selectedTestStatistic := payload },
      error := none }
  | .setTotalSimulations payload =>
    if !validateTotalSimulations payload then
      setStateError state ("Invalid total simulations " ++ toString payload)
    else
      { state with
        settings := { state.settings with totalSimulations := payload },
        error := none }
  | .setPValueType payload =>
    { state with
      settings := { state.settings with pValueType := payload },
      error := none }
  | .startSimulation =>
    if state.control.isSimulating then
      setStateError state "Simulation is already running"
    else
      let completeRows := state.data.userData.rows.filter (fun row =>
        row.data.all (fun cell => cell.isSome) && row.assignment.isSome)
      if completeRows.length < 2 then
        setStateError state
          "Cannot start simulation with insufficient data. At least two complete rows are required."
      else
        { state with
          control := { state.control with isSimulating := true },
          error := none }
  | .pauseSimulation =>
    if !state.control.isSimulating then
      setStateError state "No simulation is currently running"
    else
      { state with
        control := { state.control with isSimulating := false },
        error := none }
  | .clearSimulationData =>
    { state with
      results := { simulationResults := [], pValue := none,
                   observedStatistic := none },
      error := none }
  | .setSimulationResults payload =>
    { state with
      results := { state.results with simulationResults := payload },
      error := none }
  | .setPValue payload =>
    if payload < 0 ∨ payload > 1 then
      setStateError state "Invalid p-value"
    else
      { state with
        results := { state.results with pValue := some payload },
        error := none }
  | .setObservedStatistic payload =>
    { state with
      results := { state.results with observedStatistic := payload },
      error := none }
  | .setBlockingEnabled payload =>
    { state with
      settings := { state.settings with blockingEnabled := payload },
      error := none }
  | .undo =>
    match state.past.getLast? with
    | none => setStateError state "No more actions to undo"
    | some previous =>
      { state with
        past := state.past.dropLast,
        data := { userData := previous },
        future := state.data.userData :: state.future,
        error := none }
  | .redo =>
    match state.future with
    | [] => setStateError state "No more actions to redo"
    | next :: newFuture =>
      { state with
        past := state.past ++ [state.data.userData],
        data := { userData := next },
        future := newFuture,
        error := none }

/-! ## Permutation simulation engine (`SimulationProvider.tsx`)

`runSimulation` iterates `for (let i = simulationResults.length; i <
iterations; i++)`, each turn pushing one fresh trial.  The per-iteration trial
(`simulate`, a Fisher–Yates reshuffle driven by `Math.random`) is abstracted as
an oracle `simulate` indexed by the loop counter; the abort signal (never
triggered on a completed run), animation delay, and progress callback carry no
result-list semantics and are omitted. -/

def runSimulationLoop (simulate : ℕ → List DataRow) (iterations : ℕ)
    (simulationResults : List (List DataRow)) : List (List DataRow) :=
  if simulationResults.length < iterations then
    runSimulationLoop simulate iterations
      (simulationResults ++ [simulate simulationResults.length])
  else simulationResults
termination_by iterations - simulationResults.length
decreasing_by
  simp only [List.length_append, List.length_cons, List.length_nil]
  omega

/-! ## The §3 table invariants -/

def assignmentOkB (cols : ℕ) : Option ℤ → Bool
  | none => true
  | some a => decide (0 ≤ a) && decide (a < (cols : ℤ))

/-- The §3 invariants named by the spec: at least two columns, at least one
row (the trailing one being the staging row), every row as wide as the column
list, and every present assignment a valid column index. -/
def InvUD (u : UserDataState) : Prop :=
  2 ≤ u.columns.length ∧ 1 ≤ u.rows.length ∧
    ∀ r ∈ u.rows, r.data.length = u.columns.length ∧
      assignmentOkB u.columns.length r.assignment = true

instance (u : UserDataState) : Decidable (InvUD u) := by
  unfold InvUD; infer_instance

/-- The store operations C2 quantifies over: everything except the wholesale
table replacements (`SET_USER_DATA`, `RESET_USER_DATA`) and the history
navigation (`UNDO`, `REDO`), which install previously recorded snapshots
rather than transform the current table. -/
def coveredAction : SimulationAction → Prop
  | .setUserData _ => False
  | .resetUserData => False
  | .undo => False
  | .redo => False
  | _ => True

/-! ## Concrete fixtures -/

def defaultSettings : SettingsState :=
  { simulationSpeed := 50, selectedTestStatistic := .differenceInMeans,
    totalSimulations := 1000, pValueType := .twoTailed,
    blockingEnabled := false }

def stateOf (u : UserDataState) : SimulationState :=
  { data := ⟨u⟩, past := [], future := [], settings := defaultSettings,
    control := ⟨false⟩,
    results := { simulationResults := [], pValue := none,
                 observedStatistic := none },
    error := none }

def twoCols : List ColumnDef := [⟨"Control", "A"⟩, ⟨"Treatment", "B"⟩]

/-- A table with one finished row (assigned to column 0) and the staging row. -/
def udBase : UserDataState :=
  { columns := twoCols,
    rows := [⟨[some 1, some 0], some 0, none⟩, emptyRow 2],
    colorStack := [] }

/-- A table holding only its staging row. -/
def udSingle : UserDataState :=
  { columns := twoCols, rows := [emptyRow 2], colorStack := [] }

/-- A three-column table with one row assigned to column 0 and a non-empty
color pool. -/
def udThree : UserDataState :=
  { columns := [⟨"C", "A"⟩, ⟨"T", "B"⟩, ⟨"X", "E"⟩],
    rows := [⟨[some 1, some 2, some 3], some 0, none⟩, emptyRow 3],
    colorStack := ["P"] }

/-- A three-column table whose color pool is empty. -/
def udThreePoolEmpty : UserDataState :=
  { columns := [⟨"C", "A"⟩, ⟨"T", "B"⟩, ⟨"X", "E"⟩],
    rows := [emptyRow 3],
    colorStack := [] }

/-! ## C1 — undo after a mutation -/

/-- C1: the claim — that undo immediately after any successful mutation,
addRow included, restores the exact pre-mutation table — fails on the code.
`ADD_ROW` assigns through a shallow copy of the rows array
(`newRows[newRows.length - 1].assignment = 1`), mutating the staging-row
object that the history snapshot shares, so the snapshot `undo` restores
already has `assignment = 1` on that row.  Concretely: from `udBase` (last
row's assignment absent), addRow succeeds, undo succeeds, yet the restored
table differs from `udBase` exactly in that assignment. -/
theorem c1_addRow_undo_fails_to_restore :
    (simulationReducer (stateOf udBase) .addRow).error = none ∧
    (simulationReducer (simulationReducer (stateOf udBase) .addRow)
        .undo).error = none ∧
    (simulationReducer (simulationReducer (stateOf udBase) .addRow)
        .undo).data.userData ≠ udBase ∧
    ((simulationReducer (simulationReducer (stateOf udBase) .addRow)
        .undo).data.userData.rows.map (·.assignment)) = [some 0, some 1] ∧
    udBase.rows.map (·.assignment) = [some 0, none] := by
  decide

/-! ## C2 — invariant preservation -/

/-- C2 counterexample: two successful operations break the §3 invariants.
Deleting the single (staging) row of `udSingle` succeeds and leaves zero rows;
removing column 0 of `udThree` succeeds and rewrites the assignment 0 of the
first row to -1, outside `[0, columns.length)`. -/
theorem c2_invariants_counterexample :
    (InvUD udSingle ∧
      (simulationReducer (stateOf udSingle) (.deleteRow 0)).error = none ∧
      (simulationReducer (stateOf udSingle)
          (.deleteRow 0)).data.userData.rows.length = 0 ∧
      ¬ InvUD (simulationReducer (stateOf udSingle)
          (.deleteRow 0)).data.userData) ∧
    (InvUD udThree ∧
      (simulationReducer (stateOf udThree) (.removeColumn 0)).error = none ∧
      ((simulationReducer (stateOf udThree)
          (.removeColumn 0)).data.userData.rows.map (·.assignment)) =
        [some (-1), none] ∧
      ¬ InvUD (simulationReducer (stateOf udThree)
          (.removeColumn 0)).data.userData) := by
  decide

/-! ## C3 — color pool round trip -/

/-- C3 counterexample: with a non-empty color pool, `removeColumn` pushes the
removed color onto the back of the queue while `addColumn` pops from the
front, so the re-created column receives the pool's old front (`"P"`), not the
removed column's color (`"A"`). -/
theorem c3_pool_roundtrip_counterexample :
    (simulationReducer (stateOf udThree) (.removeColumn 0)).error = none ∧
    ((simulationReducer (stateOf udThree)
        (.removeColumn 0)).data.userData.colorStack) = ["P", "A"] ∧
    (simulationReducer (simulationReducer (stateOf udThree) (.removeColumn 0))
        (.addColumn "New")).error = none ∧
    (((simulationReducer (simulationReducer (stateOf udThree)
        (.removeColumn 0)) (.addColumn "New")).data.userData.columns.map
        (·.color)) = ["B", "E", "P"]) ∧
    ((udThree.columns.map (·.color)) = ["A", "B", "E"]) := by
  decide


/-! ## Step equations

Closed forms for the reducer's branches, used throughout the proofs. -/

theorem setStateError_error (s : SimulationState) (m : String) :
    (setStateError s m).error = some ⟨m⟩ := rfl

theorem red_emptyUserData (s : SimulationState) :
    simulationReducer s .emptyUserData =
      { s with
        past := s.past ++ [s.data.userData],
        future := [],
        data := ⟨{ s.data.userData with
          rows := s.data.userData.rows.map (fun row =>
            { data := s.data.userData.columns.map (fun _ => (none : Option ℚ)),
              assignment := row.assignment,
              block := none }) }⟩,
        error := none } := by
  simp only [simulationReducer, updateHistory]

theorem red_addRow (s : SimulationState) :
    simulationReducer s .addRow =
      { s with
        past := s.past ++
          [{ s.data.userData with
             rows := forceLastAssignment s.data.userData.rows }],
        future := [],
        data := ⟨{ s.data.userData with
          rows := forceLastAssignment s.data.userData.rows ++
            [emptyRow s.data.userData.columns.length] }⟩,
        error := none } := by
  simp only [simulationReducer]

theorem red_deleteRow_ok (s : SimulationState) (i : ℕ)
    (h : ¬ i ≥ s.data.userData.rows.length) :
    simulationReducer s (.deleteRow i) =
      { s with
        past := s.past ++ [s.data.userData],
        future := [],
        data := ⟨{ s.data.userData with
          rows := s.data.userData.rows.eraseIdx i }⟩,
        error := none } := by
  simp only [simulationReducer, updateHistory, if_neg h]

theorem red_updateCell_ok (s : SimulationState) (ri ci : ℕ) (v : Option ℚ)
    (hr : ¬ ri ≥ s.data.userData.rows.length)
    (hc : ¬ ci ≥ s.data.userData.columns.length) :
    simulationReducer s (.updateCell ri ci v) =
      (let u := s.data.userData
       let isLastRow : Bool := ri == u.rows.length - 1
       let row := (u.rows.get? ri).getD (emptyRow 0)
       let splicedRow := { row with
         data := row.data.take ci ++ [v] ++ row.data.drop (ci + 1) }
       let updatedRow :=
         if isLastRow then { splicedRow with assignment := some (ci : ℤ) }
         else splicedRow
       let updatedRows := u.rows.set ri updatedRow
       let finalRows :=
         if isLastRow && v.isSome then updatedRows ++ [emptyRow u.columns.length]
         else updatedRows
       { s with
         past := s.past ++ [u],
         future := [],
         data := ⟨{ u with rows := finalRows }⟩,
         error := none }) := by
  simp only [simulationReducer, updateHistory, if_neg hr, if_neg hc]

theorem red_setBlock_ok (s : SimulationState) (ri : ℕ) (b : Option String)
    (hr : ¬ ri ≥ s.data.userData.rows.length) :
    simulationReducer s (.setBlock ri b) =
      { s with
        past := s.past ++ [s.data.userData],
        future := [],
        data := ⟨{ s.data.userData with
          rows := s.data.userData.rows.set ri
            { (s.data.userData.rows.get? ri).getD (emptyRow 0) with
              block := b } }⟩,
        error := none } := by
  simp only [simulationReducer, updateHistory, if_neg hr]

theorem red_setAssignment_ok (s : SimulationState) (ri : ℕ) (oa : Option ℕ)
    (hr : ¬ ri ≥ s.data.userData.rows.length)
    (ha : (match oa with
           | some a => decide (a ≥ s.data.userData.columns.length)
           | none => false) = false) :
    simulationReducer s (.setAssignment ri oa) =
      (let u := s.data.userData
       let isLastRow : Bool := ri == u.rows.length - 1
       let row := (u.rows.get? ri).getD (emptyRow 0)
       let newAssignment := oa.map (fun a => ((a % u.columns.length : ℕ) : ℤ))
       let updatedRows := u.rows.set ri { row with assignment := newAssignment }
       let finalRows :=
         if isLastRow then updatedRows ++ [emptyRow u.columns.length]
         else updatedRows
       { s with
         past := s.past ++ [u],
         future := [],
         data := ⟨{ u with rows := finalRows }⟩,
         error := none }) := by
  simp only [simulationReducer, updateHistory, if_neg hr]
  rw [if_neg (by simp [ha])]

theorem red_renameColumn_ok (s : SimulationState) (i : ℕ) (nm : String)
    (hi : ¬ i ≥ s.data.userData.columns.length)
    (hnm : isBlankName nm = false) :
    simulationReducer s (.renameColumn i nm) =
      { s with
        past := s.past ++ [s.data.userData],
        future := [],
        data := ⟨{ s.data.userData with
          columns := s.data.userData.columns.set i
            { (s.data.userData.columns.get? i).getD ⟨"", ""⟩ with
              name := nm } }⟩,
        error := none } := by
  simp only [simulationReducer, updateHistory, if_neg hi, hnm,
    Bool.false_eq_true, if_false]

theorem red_addColumn_ok (s : SimulationState) (nm : String)
    (hnm : isBlankName nm = false) :
    simulationReducer s (.addColumn nm) =
      (let u := s.data.userData
       let newColor := match u.colorStack.head? with
         | some c => if c = "" then "text-gray-500" else c
         | none => "text-gray-500"
       { s with
         past := s.past ++ [u],
         future := [],
         data := ⟨{ u with
           rows := u.rows.map (fun row => { row with data := row.data ++ [none] }),
           columns := u.columns ++ [⟨nm, newColor⟩],
           colorStack := u.colorStack.drop 1 }⟩,
         error := none }) := by
  simp only [simulationReducer, updateHistory, hnm, Bool.false_eq_true,
    if_false]
  have hfind : allTestStatistics.find?
      (fun key => (testStatisticsMeta key).supportsMultipleTreatments) =
        none := rfl
  rw [hfind]
  split_ifs <;> rfl

theorem red_removeColumn_ok (s : SimulationState) (i : ℕ)
    (h1 : ¬ i ≥ s.data.userData.columns.length)
    (h2 : ¬ s.data.userData.columns.length ≤ 2) :
    simulationReducer s (.removeColumn i) =
      { s with
        past := s.past ++ [s.data.userData],
        future := [],
        data := ⟨{ s.data.userData with
          rows := s.data.userData.rows.map (fun row =>
            { row with
              data := row.data.eraseIdx i,
              assignment := match row.assignment with
                | none => none
                | some a => if a ≥ (i : ℤ) then some (a - 1) else some a }),
          columns := s.data.userData.columns.eraseIdx i,
          colorStack := s.data.userData.colorStack ++
            [((s.data.userData.columns.get? i).getD ⟨"", ""⟩).color] }⟩,
        error := none } := by
  simp only [simulationReducer, updateHistory, if_neg h1, if_neg h2]

theorem red_start_running (s : SimulationState)
    (h : s.control.isSimulating = true) :
    simulationReducer s .startSimulation =
      { s with error := some ⟨"Simulation is already running"⟩ } := by
  simp only [simulationReducer, h, if_true, setStateError]

theorem red_start_insufficient (s : SimulationState)
    (h : s.control.isSimulating = false)
    (hfew : (s.data.userData.rows.filter (fun row =>
        row.data.all (fun cell => cell.isSome) &&
          row.assignment.isSome)).length < 2) :
    simulationReducer s .startSimulation =
      setStateError s
        "Cannot start simulation with insufficient data. At least two complete rows are required." := by
  simp only [simulationReducer, h, Bool.false_eq_true, if_false, if_pos hfew]

theorem red_start_ok (s : SimulationState)
    (h : s.control.isSimulating = false)
    (hok : ¬ (s.data.userData.rows.filter (fun row =>
        row.data.all (fun cell => cell.isSome) &&
          row.assignment.isSome)).length < 2) :
    simulationReducer s .startSimulation =
      { s with
        control := { s.control with isSimulating := true }
        error := none } := by
  simp only [simulationReducer, h, Bool.false_eq_true, if_false, if_neg hok]

theorem red_pause_idle (s : SimulationState)
    (h : s.control.isSimulating = false) :
    simulationReducer s .pauseSimulation =
      { s with error := some ⟨"No simulation is currently running"⟩ } := by
  simp only [simulationReducer, h, Bool.not_false, if_true, setStateError]

/-! ## C3 — amended statement -/

/-- C3 (amended): the pool round-trip holds exactly in the empty-pool case.
When the color pool is empty before a successful `removeColumn i`, the removed
color becomes the sole pool entry, so the next `addColumn` (any non-blank
name; the palette is assumed to contain no empty-string token, which would
trip the `colorStack[0] || fallback` test) re-creates a column bearing the
removed column's color.  In general `removeColumn` appends to the back of the
queue and `addColumn` pops the front. -/
theorem c3_pool_roundtrip_amended (s : SimulationState) (i : ℕ) (name : String)
    (hpool : s.data.userData.colorStack = [])
    (hsucc : (simulationReducer s (.removeColumn i)).error = none)
    (hname : isBlankName name = false)
    (hcolor : ∀ c ∈ s.data.userData.columns, c.color ≠ "") :
    ((simulationReducer (simulationReducer s (.removeColumn i))
        (.addColumn name)).data.userData.columns.getLast?).map (·.color) =
      (s.data.userData.columns.get? i).map (·.color) := by
  by_cases h1 : i ≥ s.data.userData.columns.length
  · rw [show simulationReducer s (.removeColumn i) =
        setStateError s ("Invalid column index " ++ toString i) by
      simp only [simulationReducer, if_pos h1]] at hsucc
    simp [setStateError] at hsucc
  by_cases h2 : s.data.userData.columns.length ≤ 2
  · rw [show simulationReducer s (.removeColumn i) =
        setStateError s "Cannot remove column when there are only two columns"
      by simp only [simulationReducer, if_neg h1, if_pos h2]] at hsucc
    simp [setStateError] at hsucc
  have hi : i < s.data.userData.columns.length := lt_of_not_le h1
  have hget : s.data.userData.columns.get? i =
      some s.data.userData.columns[i] := List.get?_eq_get hi
  have hcol : s.data.userData.columns[i].color ≠ "" :=
    hcolor _ (List.getElem_mem hi)
  rw [red_removeColumn_ok s i h1 h2, red_addColumn_ok _ name hname]
  simp only [hpool, hget, List.nil_append, Option.getD_some,
    List.head?_cons, if_neg hcol, List.getLast?_append, List.getLast?_singleton,
    Option.or, Option.map_some]
  rfl

/-- The `START_SIMULATION` insufficient-data message. -/
def insufficientDataMsg : String :=
  "Cannot start simulation with insufficient data. At least two complete rows are required."

/-! ## C9 — start/pause state errors -/

/-- C9: `START_SIMULATION` while a run is active, or with fewer than two
complete, assigned rows, and `PAUSE_SIMULATION` while idle, each return the
unchanged state with only the error field set (so `simulationResults` and all
other fields are untouched). -/
theorem c9_start_pause_state_errors (s : SimulationState) :
    (s.control.isSimulating = true →
      simulationReducer s .startSimulation =
        { s with error := some ⟨"Simulation is already running"⟩ }) ∧
    (s.control.isSimulating = false →
      (s.data.userData.rows.filter (fun row =>
          row.data.all (fun cell => cell.isSome) &&
            row.assignment.isSome)).length < 2 →
      simulationReducer s .startSimulation =
        { s with error := some ⟨insufficientDataMsg⟩ }) ∧
    (s.control.isSimulating = false →
      simulationReducer s .pauseSimulation =
        { s with error := some ⟨"No simulation is currently running"⟩ }) :=
  ⟨fun h => red_start_running s h,
   fun h hfew => red_start_insufficient s h hfew,
   fun h => red_pause_idle s h⟩

/-- A state that is mid-simulation, for exercising the start-while-running
branch. -/
def udRunState : SimulationState :=
  { stateOf udBase with control := ⟨true⟩ }

theorem c9_start_pause_state_errors_witness :
    (udRunState.control.isSimulating = true ∧
      simulationReducer udRunState .startSimulation =
        { udRunState with error := some ⟨"Simulation is already running"⟩ }) ∧
    ((stateOf udBase).control.isSimulating = false ∧
      ((stateOf udBase).data.userData.rows.filter (fun row =>
          row.data.all (fun cell => cell.isSome) &&
            row.assignment.isSome)).length < 2 ∧
      simulationReducer (stateOf udBase) .startSimulation =
        { stateOf udBase with error := some ⟨insufficientDataMsg⟩ } ∧
      simulationReducer (stateOf udBase) .pauseSimulation =
        { stateOf udBase with
          error := some ⟨"No simulation is currently running"⟩ }) :=
  ⟨⟨rfl, (c9_start_pause_state_errors udRunState).1 rfl⟩,
   ⟨rfl, by decide,
    (c9_start_pause_state_errors (stateOf udBase)).2.1 rfl (by decide),
    (c9_start_pause_state_errors (stateOf udBase)).2.2 rfl⟩⟩

/-! ## C10 — clearCellValues resets blocks -/

/-- C10: `EMPTY_USER_DATA` maps every row to a fresh record whose data cells
are all absent, whose assignment is the row's original assignment, and whose
block is reset to absent — while columns, color pool, and the number of rows
are unchanged. -/
theorem c10_emptyUserData_resets_blocks (s : SimulationState) :
    (simulationReducer s .emptyUserData).error = none ∧
    (simulationReducer s .emptyUserData).data.userData.columns =
      s.data.userData.columns ∧
    (simulationReducer s .emptyUserData).data.userData.colorStack =
      s.data.userData.colorStack ∧
    (simulationReducer s .emptyUserData).data.userData.rows =
      s.data.userData.rows.map (fun row =>
        { data := s.data.userData.columns.map (fun _ => (none : Option ℚ)),
          assignment := row.assignment,
          block := none }) ∧
    (simulationReducer s .emptyUserData).data.userData.rows.length =
      s.data.userData.rows.length := by
  rw [red_emptyUserData]
  exact ⟨rfl, rfl, rfl, rfl, by simp⟩

/-! ## C8 — resumable simulation loop -/

theorem runSimulationLoop_spec (simulate : ℕ → List DataRow)
    (iterations : ℕ) :
    ∀ (m : ℕ) (ex : List (List DataRow)), iterations - ex.length = m →
      ex.length ≤ iterations →
      (runSimulationLoop simulate iterations ex).length = iterations ∧
      (runSimulationLoop simulate iterations ex).take ex.length = ex := by
  intro m
  induction m with
  | zero =>
    intro ex hm hle
    have heq : ex.length = iterations := by omega
    rw [runSimulationLoop, if_neg (by omega)]
    exact ⟨heq, List.take_length ex⟩
  | succ k ih =>
    intro ex hm hle
    have hlt : ex.length < iterations := by omega
    rw [runSimulationLoop, if_pos hlt]
    obtain ⟨hlen, htake⟩ := ih (ex ++ [simulate ex.length])
      (by simp only [List.length_append, List.length_cons, List.length_nil]
          omega)
      (by simp only [List.length_append, List.length_cons, List.length_nil]
          omega)
    refine ⟨hlen, ?_⟩
    have hlen2 : (ex ++ [simulate ex.length]).length = ex.length + 1 := by simp
    rw [hlen2] at htake
    have := List.take_take ex.length (ex.length + 1)
      (runSimulationLoop simulate iterations (ex ++ [simulate ex.length]))
    rw [min_eq_left (Nat.le_succ _)] at this
    rw [← this, htake]
    exact List.take_left ex [simulate ex.length]

/-- C8: the resumable loop keeps all `k` already-accumulated results as an
unchanged prefix and appends exactly `iterations − k` fresh trials — zero of
them when the budget already equals `k` — never discarding or regenerating
accumulated results. -/
theorem c8_runSimulationLoop_appends (simulate : ℕ → List DataRow)
    (iterations : ℕ) (existing : List (List DataRow))
    (h : existing.length ≤ iterations) :
    (runSimulationLoop simulate iterations existing).take existing.length =
      existing ∧
    (runSimulationLoop simulate iterations existing).length = iterations ∧
    ((runSimulationLoop simulate iterations existing).drop
        existing.length).length = iterations - existing.length ∧
    (existing.length = iterations →
      runSimulationLoop simulate iterations existing = existing) := by
  obtain ⟨hlen, htake⟩ :=
    runSimulationLoop_spec simulate iterations (iterations - existing.length)
      existing rfl h
  refine ⟨htake, hlen, ?_, ?_⟩
  · rw [List.length_drop, hlen]
  · intro heq
    rw [runSimulationLoop, if_neg (by omega)]

/-! ## C4, C5, C6 — statistics -/

/-- The spec's p-value example, as row sets whose difference-in-means
statistics are 1, 5, 6 and 10. -/
def pvRow (v : ℚ) : List DataRow :=
  [⟨[some 0, some 0], some 0, none⟩, ⟨[some 0, some v], some 1, none⟩]

def pvExample : List (List DataRow) := [pvRow 1, pvRow 5, pvRow 6, pvRow 10]

theorem dmPvRow (v : ℚ) : differenceInMeans (pvRow v) = v := by
  have hg : dimGroups (pvRow v) = [[0], [v]] := rfl
  simp only [differenceInMeans, hg]
  norm_num [pvRow]

/-- C4: with at least one simulated trial, `calculatePValue` returns
`extremeCount / simulated.length` where the extreme count applies the
two-, left- or right-tailed comparison of the claim; on an empty trial list it
returns the `NaN` signal (`none`); and the spec example — observed 5,
simulated statistics 1, 5, 6, 10, two-tailed — yields 3/4. -/
theorem c4_calculatePValue_spec (f : List DataRow → ℚ) (obs : ℚ)
    (results : List (List DataRow)) (tail : PValueType)
    (h : results ≠ []) :
    calculatePValue f obs results tail =
      some (((results.filter (fun result => match tail with
          | .twoTailed => decide (|f result| ≥ |obs|)
          | .leftTailed => decide (f result ≤ obs)
          | .rightTailed => decide (f result ≥ obs))).length : ℚ) /
        (results.length : ℚ)) ∧
    calculatePValue f obs [] tail = none ∧
    calculatePValue differenceInMeans 5 pvExample .twoTailed = some (3 / 4) := by
  refine ⟨?_, ?_, ?_⟩
  · have hne : results.length ≠ 0 := fun hl => h (List.length_eq_zero.mp hl)
    cases tail <;> simp only [calculatePValue, if_neg hne]
  · cases tail <;> rfl
  · simp only [calculatePValue, pvExample, List.filter_cons, List.filter_nil,
      dmPvRow]
    norm_num

theorem c4_calculatePValue_spec_witness :
    pvExample ≠ [] ∧
    (calculatePValue differenceInMeans 5 pvExample .twoTailed =
      some (((pvExample.filter (fun result => match PValueType.twoTailed with
          | .twoTailed => decide (|differenceInMeans result| ≥ |(5 : ℚ)|)
          | .leftTailed => decide (differenceInMeans result ≤ (5 : ℚ))
          | .rightTailed =>
              decide (differenceInMeans result ≥ (5 : ℚ)))).length : ℚ) /
        (pvExample.length : ℚ)) ∧
     calculatePValue differenceInMeans 5 [] .twoTailed = none ∧
     calculatePValue differenceInMeans 5 pvExample .twoTailed =
       some (3 / 4)) :=
  ⟨by simp [pvExample],
   c4_calculatePValue_spec differenceInMeans 5 pvExample .twoTailed
     (by simp [pvExample])⟩

/-- The spec's Wilcoxon example: group A = [1,2,3], group B = [4,5,6]. -/
def wilcoxonExample : List DataRow :=
  [⟨[some 1], some 0, none⟩, ⟨[some 2], some 0, none⟩, ⟨[some 3], some 0, none⟩,
   ⟨[some 4], some 1, none⟩, ⟨[some 5], some 1, none⟩, ⟨[some 6], some 1, none⟩]

/-- C5 counterexample: on the empty row list the number of (non-empty) groups
is zero, yet `wilcoxonRankSum` takes its early `data.length === 0` return and
yields `ok 0` instead of the ComputationError the claim requires whenever the
group count differs from two. -/
theorem c5_wilcoxon_counterexample :
    wilcoxonRankSum ([] : List DataRow) = .ok 0 ∧
    (wilcoxonGroups ([] : List DataRow)).length = 0 := ⟨rfl, rfl⟩

/-- C5 (amended): for NON-EMPTY input, `wilcoxonRankSum` fails with the
two-groups ComputationError whenever the number of non-empty groups differs
from two, and otherwise returns `min U1 U2` with `U1 = rankSum(group 1) −
n1(n1+1)/2` and `U2 = n1·n2 − U1`; on the empty input it returns 0 without an
error; on the spec example ([1,2,3] vs [4,5,6]) it returns 0. -/
theorem c5_wilcoxon_spec (data : List DataRow) (hne : data ≠ []) :
    ((wilcoxonGroups data).length ≠ 2 →
      wilcoxonRankSum data =
        .error "Wilcoxon rank-sum test requires exactly two groups.") ∧
    ((wilcoxonGroups data).length = 2 →
      wilcoxonRankSum data = .ok (
        let group1 := ((wilcoxonGroups data).get? 0).getD []
        let group2 := ((wilcoxonGroups data).get? 1).getD []
        let ranks := rank (group1 ++ group2)
        let U1 := (ranks.take group1.length).sum -
          (group1.length : ℚ) * ((group1.length : ℚ) + 1) / 2
        min U1 ((group1.length : ℚ) * (group2.length : ℚ) - U1))) ∧
    wilcoxonRankSum ([] : List DataRow) = .ok 0 ∧
    wilcoxonRankSum wilcoxonExample = .ok 0 := by
  have hlen : data.length ≠ 0 := fun hl => hne (List.length_eq_zero.mp hl)
  refine ⟨?_, ?_, rfl, ?_⟩
  · intro hk
    simp only [wilcoxonRankSum, if_neg hlen, if_pos hk]
  · intro h2
    have hk : ¬ (wilcoxonGroups data).length ≠ 2 := by omega
    simp only [wilcoxonRankSum, if_neg hlen, if_neg hk]
  · have hg : wilcoxonGroups wilcoxonExample = [[1, 2, 3], [4, 5, 6]] := by
      decide
    have hr : rank [1, 2, 3, 4, 5, 6] = [1, 2, 3, 4, 5, 6] := by decide
    simp only [wilcoxonRankSum, hg]
    norm_num [wilcoxonExample, hr, List.sum_cons, List.sum_nil]

theorem c5_wilcoxon_spec_witness :
    wilcoxonExample ≠ [] ∧
    ((wilcoxonGroups wilcoxonExample).length = 2 →
      wilcoxonRankSum wilcoxonExample = .ok (
        let group1 := ((wilcoxonGroups wilcoxonExample).get? 0).getD []
        let group2 := ((wilcoxonGroups wilcoxonExample).get? 1).getD []
        let ranks := rank (group1 ++ group2)
        let U1 := (ranks.take group1.length).sum -
          (group1.length : ℚ) * ((group1.length : ℚ) + 1) / 2
        min U1 ((group1.length : ℚ) * (group2.length : ℚ) - U1))) ∧
    wilcoxonRankSum wilcoxonExample = .ok 0 :=
  ⟨by simp [wilcoxonExample],
   (c5_wilcoxon_spec wilcoxonExample (by simp [wilcoxonExample])).2.1,
   (c5_wilcoxon_spec wilcoxonExample (by simp [wilcoxonExample])).2.2.2⟩

/-- The spec's difference-in-means example rows. -/
def dimExample : List DataRow :=
  [⟨[some 3, some 5], some 0, none⟩, ⟨[some 4, some 6], some 1, none⟩]

theorem meanIfEq (g : List ℚ) :
    (if 0 < g.length then g.sum / (g.length : ℚ) else 0) =
      g.sum / (g.length : ℚ) := by
  rcases Nat.eq_zero_or_pos g.length with h | h
  · simp [h]
  · rw [if_pos h]

/-- C6: whenever the grouping yields at least two groups, `differenceInMeans`
returns mean(group 1) − mean(group 0) — each group holding the cell at every
member row's own assignment index; it returns 0 on empty input; and the spec
example rows give 6 − 3 = 3. -/
theorem c6_differenceInMeans_spec (data : List DataRow)
    (h : 2 ≤ (dimGroups data).length) :
    differenceInMeans data =
      (((dimGroups data).get? 1).getD []).sum /
          ((((dimGroups data).get? 1).getD []).length : ℚ) -
        (((dimGroups data).get? 0).getD []).sum /
          ((((dimGroups data).get? 0).getD []).length : ℚ) ∧
    differenceInMeans [] = 0 ∧
    differenceInMeans dimExample = 3 := by
  refine ⟨?_, rfl, ?_⟩
  · have hne : data.length ≠ 0 := by
      intro hl
      rw [List.length_eq_zero.mp hl] at h
      simp [dimGroups, dimPairs, distinctFirst, distinctFirstAux, sortByB] at h
    have h0 : (dimGroups data).get? 0 =
        some ((dimGroups data).get ⟨0, by omega⟩) := List.get?_eq_get (by omega)
    have h1 : (dimGroups data).get? 1 =
        some ((dimGroups data).get ⟨1, by omega⟩) := List.get?_eq_get (by omega)
    simp only [differenceInMeans, if_neg hne, List.length_map, if_pos h,
      List.get?_map, h0, h1, Option.map_some, Option.getD_some]
    simp [meanIfEq]
  · have hg : dimGroups dimExample = [[3], [6]] := by decide
    simp only [differenceInMeans, hg]
    norm_num [dimExample]

theorem c6_differenceInMeans_spec_witness :
    2 ≤ (dimGroups dimExample).length ∧
    (differenceInMeans dimExample =
      (((dimGroups dimExample).get? 1).getD []).sum /
          ((((dimGroups dimExample).get? 1).getD []).length : ℚ) -
        (((dimGroups dimExample).get? 0).getD []).sum /
          ((((dimGroups dimExample).get? 0).getD []).length : ℚ) ∧
     differenceInMeans [] = 0 ∧
     differenceInMeans dimExample = 3) :=
  ⟨by decide, c6_differenceInMeans_spec dimExample (by decide)⟩

/-! ## C7 — updateCell on the staging row -/


/-- C7: a successful `UPDATE_CELL` aimed at the staging row (the last row)
writes the cell, forces the row's assignment to the edited column index, and —
when the value is present — appends a fresh empty staging row so the row count
grows by exactly one; with an absent value the row count is unchanged. -/
theorem c7_updateCell_staging (s : SimulationState) (ri ci : ℕ) (v : Option ℚ)
    (hInv : InvUD s.data.userData)
    (hri : ri < s.data.userData.rows.length)
    (hci : ci < s.data.userData.columns.length)
    (hlast : ri = s.data.userData.rows.length - 1) :
    (simulationReducer s (.updateCell ri ci v)).error = none ∧
    ((simulationReducer s (.updateCell ri ci v)).data.userData.rows.get?
        ri).map (·.assignment) = some (some (ci : ℤ)) ∧
    ((simulationReducer s (.updateCell ri ci v)).data.userData.rows.get?
        ri).map (fun r => r.data.get? ci) = some (some v) ∧
    (v.isSome = true →
      (simulationReducer s (.updateCell ri ci v)).data.userData.rows.length =
        s.data.userData.rows.length + 1 ∧
      (simulationReducer s
          (.updateCell ri ci v)).data.userData.rows.getLast? =
        some (emptyRow s.data.userData.columns.length)) ∧
    (v = none →
      (simulationReducer s (.updateCell ri ci v)).data.userData.rows.length =
        s.data.userData.rows.length) := by
  have hr : ¬ ri ≥ s.data.userData.rows.length := by omega
  have hc : ¬ ci ≥ s.data.userData.columns.length := by omega
  have hrow : (s.data.userData.rows.get? ri).getD (emptyRow 0) =
      s.data.userData.rows[ri] := by
    rw [List.get?_eq_get hri]; rfl
  have hmem : s.data.userData.rows[ri] ∈ s.data.userData.rows :=
    List.getElem_mem hri
  have hwidth : (s.data.userData.rows[ri]).data.length =
      s.data.userData.columns.length := (hInv.2.2 _ hmem).1
  have hbeq : (ri == s.data.userData.rows.length - 1) = true := by
    rw [hlast]; simp
  rw [red_updateCell_ok s ri ci v hr hc]
  simp only [hbeq, if_true, Bool.true_and, hrow]
  set row := s.data.userData.rows[ri] with hrowdef
  set updatedRow : DataRow :=
    { row with
      data := row.data.take ci ++ [v] ++ row.data.drop (ci + 1),
      assignment := some (ci : ℤ) } with hupd
  have hsetlen : (s.data.userData.rows.set ri updatedRow).length =
      s.data.userData.rows.length := List.length_set _ _ _
  have hget : (s.data.userData.rows.set ri updatedRow).get? ri =
      some updatedRow := by
    rw [List.get?_eq_getElem?]
    simp [List.getElem?_set, hri]
  have htl : (row.data.take ci).length = ci := by
    rw [List.length_take]; omega
  have hcell : updatedRow.data.get? ci = some v := by
    show (row.data.take ci ++ [v] ++ row.data.drop (ci + 1)).get? ci = some v
    rw [List.append_assoc, List.singleton_append, List.get?_eq_getElem?,
      List.getElem?_append_right htl.le, htl, Nat.sub_self]
    simp
  cases v with
  | none =>
    simp only [Option.isSome_none, Bool.false_eq_true, if_false]
    refine ⟨trivial, ?_, ?_, ?_, ?_⟩
    · rw [hget]; rfl
    · rw [hget]
      simpa using hcell
    · intro hsome
      exact absurd hsome (by simp)
    · intro _
      exact hsetlen
  | some q =>
    simp only [Option.isSome_some, if_true]
    refine ⟨trivial, ?_, ?_, ?_, ?_⟩
    · rw [List.get?_eq_getElem?,
        List.getElem?_append_left (by rw [hsetlen]; omega),
        ← List.get?_eq_getElem?, hget]
      rfl
    · rw [List.get?_eq_getElem?,
        List.getElem?_append_left (by rw [hsetlen]; omega),
        ← List.get?_eq_getElem?, hget]
      simpa using hcell
    · intro _
      refine ⟨by simp [hsetlen], by simp [List.getLast?_append]⟩
    · intro hnone
      exact absurd hnone (by simp)

theorem c7_updateCell_staging_witness :
    InvUD (stateOf udBase).data.userData ∧
    1 < (stateOf udBase).data.userData.rows.length ∧
    1 < (stateOf udBase).data.userData.columns.length ∧
    1 = (stateOf udBase).data.userData.rows.length - 1 ∧
    ((simulationReducer (stateOf udBase)
        (.updateCell 1 1 (some 7))).error = none ∧
     ((simulationReducer (stateOf udBase)
        (.updateCell 1 1 (some 7))).data.userData.rows.get? 1).map
        (·.assignment) = some (some (1 : ℤ)) ∧
     ((simulationReducer (stateOf udBase)
        (.updateCell 1 1 (some 7))).data.userData.rows.get? 1).map
        (fun r => r.data.get? 1) = some (some (some 7)) ∧
     ((some (7 : ℚ)).isSome = true →
       (simulationReducer (stateOf udBase)
          (.updateCell 1 1 (some 7))).data.userData.rows.length =
         (stateOf udBase).data.userData.rows.length + 1 ∧
       (simulationReducer (stateOf udBase)
          (.updateCell 1 1 (some 7))).data.userData.rows.getLast? =
         some (emptyRow (stateOf udBase).data.userData.columns.length)) ∧
     (some (7 : ℚ) = none →
       (simulationReducer (stateOf udBase)
          (.updateCell 1 1 (some 7))).data.userData.rows.length =
         (stateOf udBase).data.userData.rows.length)) :=
  ⟨by decide, by decide, by decide, by decide,
   c7_updateCell_staging (stateOf udBase) 1 1 (some 7) (by decide) (by decide)
     (by decide) (by decide)⟩

/-- One accumulated trial, to exercise the resumable loop. -/
def trialFixture : List (List DataRow) := [[⟨[some 1], some 0, none⟩]]

def nullSimulate : ℕ → List DataRow := fun _ => []

theorem c8_runSimulationLoop_appends_witness :
    trialFixture.length ≤ 3 ∧
    ((runSimulationLoop nullSimulate 3 trialFixture).take
        trialFixture.length = trialFixture ∧
     (runSimulationLoop nullSimulate 3 trialFixture).length = 3 ∧
     ((runSimulationLoop nullSimulate 3 trialFixture).drop
        trialFixture.length).length = 3 - trialFixture.length ∧
     (trialFixture.length = 3 →
       runSimulationLoop nullSimulate 3 trialFixture = trialFixture)) :=
  ⟨by decide,
   c8_runSimulationLoop_appends nullSimulate 3 trialFixture (by decide)⟩

/-! ## C2 — amended invariant preservation -/

theorem forceLastAssignment_length (l : List DataRow) :
    (forceLastAssignment l).length = l.length := by
  induction l with
  | nil => rfl
  | cons r rs ih =>
    cases rs with
    | nil => rfl
    | cons r2 rs2 =>
      simp only [forceLastAssignment, List.length_cons] at ih ⊢
      omega

theorem forceLastAssignment_mem (l : List DataRow) :
    ∀ x ∈ forceLastAssignment l,
      ∃ r ∈ l, x = r ∨ x = { r with assignment := some 1 } := by
  induction l with
  | nil => intro x hx; cases hx
  | cons r rs ih =>
    cases rs with
    | nil =>
      intro x hx
      simp only [forceLastAssignment, List.mem_singleton] at hx
      exact ⟨r, List.mem_singleton_self r, Or.inr hx⟩
    | cons r2 rs2 =>
      intro x hx
      simp only [forceLastAssignment, List.mem_cons] at hx
      rcases hx with rfl | hx
      · exact ⟨x, List.mem_cons_self x _, Or.inl rfl⟩
      · obtain ⟨r0, hr0, hc⟩ := ih x hx
        exact ⟨r0, List.mem_cons_of_mem _ hr0, hc⟩

theorem assignmentOkB_natCast (cols ci : ℕ) (h : ci < cols) :
    assignmentOkB cols (some (ci : ℤ)) = true := by
  simp only [assignmentOkB, Bool.and_eq_true, decide_eq_true_eq]
  exact ⟨Int.natCast_nonneg ci, by exact_mod_cast h⟩

theorem assignmentOkB_one (cols : ℕ) (h : 2 ≤ cols) :
    assignmentOkB cols (some 1) = true := by
  simp only [assignmentOkB, Bool.and_eq_true, decide_eq_true_eq]
  exact ⟨by norm_num, by exact_mod_cast (show 1 < cols by omega)⟩

theorem assignmentOkB_mono (cols cols2 : ℕ) (oa : Option ℤ)
    (h : assignmentOkB cols oa = true) (hle : cols ≤ cols2) :
    assignmentOkB cols2 oa = true := by
  cases oa with
  | none => rfl
  | some a =>
    simp only [assignmentOkB, Bool.and_eq_true, decide_eq_true_eq] at h ⊢
    have : (cols : ℤ) ≤ (cols2 : ℤ) := by exact_mod_cast hle
    omega

theorem emptyRow_parts (cols : ℕ) :
    (emptyRow cols).data.length = cols ∧
      assignmentOkB cols (emptyRow cols).assignment = true := by
  simp [emptyRow, assignmentOkB]

theorem inv_emptyUserData (s : SimulationState) (hInv : InvUD s.data.userData) :
    InvUD (simulationReducer s .emptyUserData).data.userData := by
  obtain ⟨hcols, hrows, hall⟩ := hInv
  rw [red_emptyUserData]
  refine ⟨hcols, by simpa using hrows, ?_⟩
  intro r hr
  simp only [List.mem_map] at hr
  obtain ⟨r0, hr0, hr0eq⟩ := hr
  rw [← hr0eq]
  exact ⟨by simp, (hall r0 hr0).2⟩

theorem inv_addRow (s : SimulationState) (hInv : InvUD s.data.userData) :
    InvUD (simulationReducer s .addRow).data.userData := by
  obtain ⟨hcols, hrows, hall⟩ := hInv
  rw [red_addRow]
  refine ⟨hcols, by simp [forceLastAssignment_length], ?_⟩
  intro r hr
  rw [List.mem_append] at hr
  rcases hr with hr | hr
  · obtain ⟨r0, hr0, hc⟩ := forceLastAssignment_mem _ r hr
    rcases hc with h | h
    · rw [h]; exact hall r0 hr0
    · rw [h]
      exact ⟨(hall r0 hr0).1, assignmentOkB_one _ hcols⟩
  · simp only [List.mem_singleton] at hr
    rw [hr]
    exact emptyRow_parts _

theorem inv_deleteRow (s : SimulationState) (i : ℕ)
    (hInv : InvUD s.data.userData) (h2 : 2 ≤ s.data.userData.rows.length)
    (hsucc : (simulationReducer s (.deleteRow i)).error = none) :
    InvUD (simulationReducer s (.deleteRow i)).data.userData := by
  obtain ⟨hcols, hrows, hall⟩ := hInv
  by_cases hguard : i ≥ s.data.userData.rows.length
  · rw [show simulationReducer s (.deleteRow i) =
        setStateError s ("Invalid row index " ++ toString i) from by
      simp [simulationReducer, if_pos hguard]] at hsucc
    simp [setStateError] at hsucc
  · rw [red_deleteRow_ok s i hguard]
    have hi : i < s.data.userData.rows.length := by omega
    refine ⟨hcols, ?_, ?_⟩
    · rw [List.length_eraseIdx]
      simp only [hi, if_true]
      omega
    · intro r hr
      exact hall r ((List.eraseIdx_sublist _ i).mem hr)

theorem inv_setBlock (s : SimulationState) (ri : ℕ) (b : Option String)
    (hInv : InvUD s.data.userData)
    (hsucc : (simulationReducer s (.setBlock ri b)).error = none) :
    InvUD (simulationReducer s (.setBlock ri b)).data.userData := by
  obtain ⟨hcols, hrows, hall⟩ := hInv
  by_cases hri : ri ≥ s.data.userData.rows.length
  · rw [show simulationReducer s (.setBlock ri b) =
        setStateError s ("Invalid row index " ++ toString ri) from by
      simp [simulationReducer, if_pos hri]] at hsucc
    simp [setStateError] at hsucc
  · rw [red_setBlock_ok s ri b hri]
    have hri2 : ri < s.data.userData.rows.length := by omega
    have hrow : (s.data.userData.rows.get? ri).getD (emptyRow 0) =
        s.data.userData.rows[ri] := by
      rw [List.get?_eq_get hri2]; rfl
    have hmem : s.data.userData.rows[ri] ∈ s.data.userData.rows :=
      List.getElem_mem hri2
    refine ⟨hcols, by simpa using hrows, ?_⟩
    intro r hr
    rcases List.mem_or_eq_of_mem_set hr with hr | hreq
    · exact hall r hr
    · rw [hreq, hrow]
      exact ⟨(hall _ hmem).1, (hall _ hmem).2⟩

theorem inv_updateCell (s : SimulationState) (ri ci : ℕ) (v : Option ℚ)
    (hInv : InvUD s.data.userData)
    (hsucc : (simulationReducer s (.updateCell ri ci v)).error = none) :
    InvUD (simulationReducer s (.updateCell ri ci v)).data.userData := by
  obtain ⟨hcols, hrows, hall⟩ := hInv
  by_cases hri : ri ≥ s.data.userData.rows.length
  · rw [show simulationReducer s (.updateCell ri ci v) =
        setStateError s ("Invalid row index " ++ toString ri) from by
      simp [simulationReducer, if_pos hri]] at hsucc
    simp [setStateError] at hsucc
  by_cases hci : ci ≥ s.data.userData.columns.length
  · rw [show simulationReducer s (.updateCell ri ci v) =
        setStateError s ("Invalid column index " ++ toString ci) from by
      simp [simulationReducer, if_neg hri, if_pos hci]] at hsucc
    simp [setStateError] at hsucc
  rw [red_updateCell_ok s ri ci v hri hci]
  have hri2 : ri < s.data.userData.rows.length := by omega
  have hrow : (s.data.userData.rows.get? ri).getD (emptyRow 0) =
      s.data.userData.rows[ri] := by
    rw [List.get?_eq_get hri2]; rfl
  have hmem : s.data.userData.rows[ri] ∈ s.data.userData.rows :=
    List.getElem_mem hri2
  have hwidth : (s.data.userData.rows[ri]).data.length =
      s.data.userData.columns.length := (hall _ hmem).1
  have hsplice : ((s.data.userData.rows[ri]).data.take ci ++ [v] ++
      (s.data.userData.rows[ri]).data.drop (ci + 1)).length =
      s.data.userData.columns.length := by
    simp only [List.length_append, List.length_take, List.length_drop,
      List.length_cons, List.length_nil, hwidth]
    omega
  simp only [hrow]
  cases hLast : (ri == s.data.userData.rows.length - 1) with
  | false =>
    simp only [hLast, Bool.false_and, Bool.false_eq_true, if_false]
    refine ⟨hcols, by simpa using hrows, ?_⟩
    intro r hr
    rcases List.mem_or_eq_of_mem_set hr with hr | hreq
    · exact hall r hr
    · rw [hreq]
      exact ⟨hsplice, (hall _ hmem).2⟩
  | true =>
    simp only [hLast, Bool.true_and, if_true]
    cases v with
    | none =>
      simp only [Option.isSome_none, Bool.false_eq_true, if_false]
      refine ⟨hcols, by simpa using hrows, ?_⟩
      intro r hr
      rcases List.mem_or_eq_of_mem_set hr with hr | hreq
      · exact hall r hr
      · rw [hreq]
        exact ⟨hsplice, assignmentOkB_natCast _ _
          (show ci < s.data.userData.columns.length by omega)⟩
    | some q =>
      simp only [Option.isSome_some, if_true]
      refine ⟨hcols, by simp, ?_⟩
      intro r hr
      rw [List.mem_append] at hr
      rcases hr with hr | hr
      · rcases List.mem_or_eq_of_mem_set hr with hr | hreq
        · exact hall r hr
        · rw [hreq]
          exact ⟨hsplice, assignmentOkB_natCast _ _
            (show ci < s.data.userData.columns.length by omega)⟩
      · simp only [List.mem_singleton] at hr
        rw [hr]
        exact emptyRow_parts _

theorem inv_setAssignment (s : SimulationState) (ri : ℕ) (oa : Option ℕ)
    (hInv : InvUD s.data.userData)
    (hsucc : (simulationReducer s (.setAssignment ri oa)).error = none) :
    InvUD (simulationReducer s (.setAssignment ri oa)).data.userData := by
  obtain ⟨hcols, hrows, hall⟩ := hInv
  by_cases hri : ri ≥ s.data.userData.rows.length
  · rw [show simulationReducer s (.setAssignment ri oa) =
        setStateError s ("Invalid row index " ++ toString ri) from by
      simp [simulationReducer, if_pos hri]] at hsucc
    simp [setStateError] at hsucc
  rw [red_setAssignment_ok s ri oa hri (by
    cases oa with
    | none => rfl
    | some a =>
      simp only [decide_eq_false_iff_not]
      intro hge
      rw [show simulationReducer s (.setAssignment ri (some a)) =
          setStateError s "Invalid assignment" from by
        simp only [simulationReducer, if_neg hri]
        rw [if_pos (by simp [hge])]] at hsucc
      simp [setStateError] at hsucc)]
  have hri2 : ri < s.data.userData.rows.length := by omega
  have hrow : (s.data.userData.rows.get? ri).getD (emptyRow 0) =
      s.data.userData.rows[ri] := by
    rw [List.get?_eq_get hri2]; rfl
  have hmem : s.data.userData.rows[ri] ∈ s.data.userData.rows :=
    List.getElem_mem hri2
  have hnew : ((s.data.userData.rows[ri]).data.length =
      s.data.userData.columns.length) ∧
      assignmentOkB s.data.userData.columns.length
        (oa.map (fun a =>
          ((a % s.data.userData.columns.length : ℕ) : ℤ))) = true := by
    refine ⟨(hall _ hmem).1, ?_⟩
    cases oa with
    | none => rfl
    | some a =>
      exact assignmentOkB_natCast _ _ (Nat.mod_lt _ (by omega))
  simp only [hrow]
  cases hLast : (ri == s.data.userData.rows.length - 1) with
  | false =>
    simp only [hLast, Bool.false_eq_true, if_false]
    refine ⟨hcols, by simpa using hrows, ?_⟩
    intro r hr
    rcases List.mem_or_eq_of_mem_set hr with hr | hreq
    · exact hall r hr
    · rw [hreq]
      exact hnew
  | true =>
    simp only [hLast, if_true]
    refine ⟨hcols, by simp, ?_⟩
    intro r hr
    rw [List.mem_append] at hr
    rcases hr with hr | hr
    · rcases List.mem_or_eq_of_mem_set hr with hr | hreq
      · exact hall r hr
      · rw [hreq]
        exact hnew
    · simp only [List.mem_singleton] at hr
      rw [hr]
      exact emptyRow_parts _

theorem inv_renameColumn (s : SimulationState) (i : ℕ) (nm : String)
    (hInv : InvUD s.data.userData)
    (hsucc : (simulationReducer s (.renameColumn i nm)).error = none) :
    InvUD (simulationReducer s (.renameColumn i nm)).data.userData := by
  obtain ⟨hcols, hrows, hall⟩ := hInv
  by_cases hi : i ≥ s.data.userData.columns.length
  · rw [show simulationReducer s (.renameColumn i nm) =
        setStateError s ("Invalid column index " ++ toString i) from by
      simp [simulationReducer, if_pos hi]] at hsucc
    simp [setStateError] at hsucc
  have hnm2 : isBlankName nm = false := by
    cases hb : isBlankName nm with
    | false => rfl
    | true =>
      rw [show simulationReducer s (.renameColumn i nm) =
          setStateError s "New column name cannot be empty" from by
        simp only [simulationReducer, if_neg hi]
        rw [if_pos hb]] at hsucc
      simp [setStateError] at hsucc
  rw [red_renameColumn_ok s i nm hi hnm2]
  refine ⟨by simpa using hcols, by simpa using hrows, ?_⟩
  intro r hr
  simpa using hall r hr

theorem inv_addColumn (s : SimulationState) (nm : String)
    (hInv : InvUD s.data.userData)
    (hsucc : (simulationReducer s (.addColumn nm)).error = none) :
    InvUD (simulationReducer s (.addColumn nm)).data.userData := by
  obtain ⟨hcols, hrows, hall⟩ := hInv
  have hnm2 : isBlankName nm = false := by
    cases hb : isBlankName nm with
    | false => rfl
    | true =>
      rw [show simulationReducer s (.addColumn nm) =
          setStateError s "New column name cannot be empty" from by
        simp only [simulationReducer]
        rw [if_pos hb]] at hsucc
      simp [setStateError] at hsucc
  rw [red_addColumn_ok s nm hnm2]
  refine ⟨by simp; omega, by simpa using hrows, ?_⟩
  intro r hr
  simp only [List.mem_map] at hr
  obtain ⟨r0, hr0, hr0eq⟩ := hr
  obtain ⟨hw, ha⟩ := hall r0 hr0
  rw [← hr0eq]
  constructor
  · simp [hw]
  · exact assignmentOkB_mono _ _ _ ha (by simp)

theorem inv_removeColumn (s : SimulationState) (i : ℕ)
    (hInv : InvUD s.data.userData)
    (hside : 1 ≤ i ∨ ∀ r ∈ s.data.userData.rows, r.assignment ≠ some 0)
    (hsucc : (simulationReducer s (.removeColumn i)).error = none) :
    InvUD (simulationReducer s (.removeColumn i)).data.userData := by
  obtain ⟨hcols, hrows, hall⟩ := hInv
  by_cases h1 : i ≥ s.data.userData.columns.length
  · rw [show simulationReducer s (.removeColumn i) =
        setStateError s ("Invalid column index " ++ toString i) from by
      simp [simulationReducer, if_pos h1]] at hsucc
    simp [setStateError] at hsucc
  by_cases h2 : s.data.userData.columns.length ≤ 2
  · rw [show simulationReducer s (.removeColumn i) =
        setStateError s
          "Cannot remove column when there are only two columns" from by
      simp only [simulationReducer, if_neg h1]
      rw [if_pos h2]] at hsucc
    simp [setStateError] at hsucc
  rw [red_removeColumn_ok s i h1 h2]
  have hi : i < s.data.userData.columns.length := by omega
  have hcolslen : (s.data.userData.columns.eraseIdx i).length =
      s.data.userData.columns.length - 1 := by
    rw [List.length_eraseIdx]
    simp [hi]
  refine ⟨by rw [hcolslen]; omega, by simpa using hrows, ?_⟩
  intro r hr
  simp only [List.mem_map] at hr
  obtain ⟨r0, hr0, hr0eq⟩ := hr
  obtain ⟨hw, ha⟩ := hall r0 hr0
  rw [← hr0eq]
  refine ⟨?_, ?_⟩
  · show (r0.data.eraseIdx i).length =
      (s.data.userData.columns.eraseIdx i).length
    rw [hcolslen, List.length_eraseIdx]
    simp only [hw, hi, if_true]
  · show assignmentOkB (s.data.userData.columns.eraseIdx i).length
      (match r0.assignment with
        | none => none
        | some a => if a ≥ (i : ℤ) then some (a - 1) else some a) = true
    rw [hcolslen]
    cases hass : r0.assignment with
    | none => rfl
    | some a =>
      dsimp only
      rw [hass] at ha
      simp only [assignmentOkB, Bool.and_eq_true, decide_eq_true_eq] at ha
      have haz : 1 ≤ i ∨ a ≠ 0 := by
        rcases hside with h | h
        · exact Or.inl h
        · exact Or.inr (fun hz => h r0 hr0 (by rw [hass, hz]))
      have hcast : (i : ℤ) < (s.data.userData.columns.length : ℤ) := by
        exact_mod_cast hi
      have hclen : (1 : ℤ) ≤ (s.data.userData.columns.length : ℤ) - 1 := by
        omega
      have hlen1 : ((s.data.userData.columns.length - 1 : ℕ) : ℤ) =
          (s.data.userData.columns.length : ℤ) - 1 := by
        omega
      split_ifs with hge
      · simp only [assignmentOkB, Bool.and_eq_true, decide_eq_true_eq]
        rw [hlen1]
        constructor
        · rcases haz with h | h
          · have : (1 : ℤ) ≤ (i : ℤ) := by exact_mod_cast h
            omega
          · omega
        · omega
      · simp only [assignmentOkB, Bool.and_eq_true, decide_eq_true_eq]
        rw [hlen1]
        push_neg at hge
        omega

/-- C2 (amended): every successful operation other than the wholesale table
replacements (`setTable`/`resetTable`) and history navigation (`undo`/`redo`)
preserves the §3 invariants — at least two columns, at least one row, every
row as wide as the column list, and every present assignment inside
`[0, columns.length)` — provided that `deleteRow` starts from at least two
rows (the claim fails because deleting the sole staging row leaves zero rows)
and that `removeColumn` targets a nonzero index or no row is assigned to
column 0 (the claim fails because removing column 0 decrements assignment 0
to -1). -/
theorem c2_invariant_preservation (s : SimulationState) (a : SimulationAction)
    (hInv : InvUD s.data.userData)
    (hcov : coveredAction a)
    (hdel : ∀ i, a = .deleteRow i → 2 ≤ s.data.userData.rows.length)
    (hrem : ∀ i, a = .removeColumn i →
      1 ≤ i ∨ ∀ r ∈ s.data.userData.rows, r.assignment ≠ some 0)
    (hsucc : (simulationReducer s a).error = none) :
    InvUD (simulationReducer s a).data.userData := by
  cases a with
  | setUserData p => exact hcov.elim
  | resetUserData => exact hcov.elim
  | undo => exact hcov.elim
  | redo => exact hcov.elim
  | emptyUserData => exact inv_emptyUserData s hInv
  | addRow => exact inv_addRow s hInv
  | deleteRow i => exact inv_deleteRow s i hInv (hdel i rfl) hsucc
  | updateCell ri ci v => exact inv_updateCell s ri ci v hInv hsucc
  | setBlock ri b => exact inv_setBlock s ri b hInv hsucc
  | setAssignment ri oa => exact inv_setAssignment s ri oa hInv hsucc
  | renameColumn i nm => exact inv_renameColumn s i nm hInv hsucc
  | addColumn nm => exact inv_addColumn s nm hInv hsucc
  | removeColumn i => exact inv_removeColumn s i hInv (hrem i rfl) hsucc
  | setSimulationSpeed p =>
    obtain ⟨hcols, hrows, hall⟩ := hInv
    simp only [simulationReducer]
    split_ifs <;> exact ⟨hcols, hrows, hall⟩
  | setSelectedTestStatistic p =>
    obtain ⟨hcols, hrows, hall⟩ := hInv
    simp only [simulationReducer]
    exact ⟨hcols, hrows, hall⟩
  | setTotalSimulations p =>
    obtain ⟨hcols, hrows, hall⟩ := hInv
    simp only [simulationReducer]
    split_ifs <;> exact ⟨hcols, hrows, hall⟩
  | setPValueType p =>
    obtain ⟨hcols, hrows, hall⟩ := hInv
    simp only [simulationReducer]
    exact ⟨hcols, hrows, hall⟩
  | startSimulation =>
    obtain ⟨hcols, hrows, hall⟩ := hInv
    simp only [simulationReducer]
    split_ifs <;> exact ⟨hcols, hrows, hall⟩
  | pauseSimulation =>
    obtain ⟨hcols, hrows, hall⟩ := hInv
    simp only [simulationReducer]
    split_ifs <;> exact ⟨hcols, hrows, hall⟩
  | clearSimulationData =>
    obtain ⟨hcols, hrows, hall⟩ := hInv
    simp only [simulationReducer]
    exact ⟨hcols, hrows, hall⟩
  | setSimulationResults p =>
    obtain ⟨hcols, hrows, hall⟩ := hInv
    simp only [simulationReducer]
    exact ⟨hcols, hrows, hall⟩
  | setPValue p =>
    obtain ⟨hcols, hrows, hall⟩ := hInv
    simp only [simulationReducer]
    split_ifs <;> exact ⟨hcols, hrows, hall⟩
  | setObservedStatistic p =>
    obtain ⟨hcols, hrows, hall⟩ := hInv
    simp only [simulationReducer]
    exact ⟨hcols, hrows, hall⟩
  | setBlockingEnabled p =>
    obtain ⟨hcols, hrows, hall⟩ := hInv
    simp only [simulationReducer]
    exact ⟨hcols, hrows, hall⟩

theorem c2_invariant_preservation_witness :
    InvUD (stateOf udBase).data.userData ∧
    coveredAction SimulationAction.emptyUserData ∧
    (simulationReducer (stateOf udBase) .emptyUserData).error = none ∧
    InvUD (simulationReducer (stateOf udBase) .emptyUserData).data.userData :=
  ⟨by decide, trivial, by decide,
   c2_invariant_preservation (stateOf udBase) .emptyUserData (by decide)
     trivial (fun i h => by cases h) (fun i h => by cases h) (by decide)⟩

theorem c3_pool_roundtrip_amended_witness :
    (stateOf udThreePoolEmpty).data.userData.colorStack = [] ∧
    (simulationReducer (stateOf udThreePoolEmpty)
        (.removeColumn 0)).error = none ∧
    isBlankName "New" = false ∧
    (∀ c ∈ (stateOf udThreePoolEmpty).data.userData.columns, c.color ≠ "") ∧
    ((simulationReducer (simulationReducer (stateOf udThreePoolEmpty)
        (.removeColumn 0)) (.addColumn "New")).data.userData.columns.getLast?).map
        (·.color) =
      ((stateOf udThreePoolEmpty).data.userData.columns.get? 0).map (·.color) :=
  ⟨rfl, by decide, by decide, by decide,
   c3_pool_roundtrip_amended (stateOf udThreePoolEmpty) 0 "New" rfl
     (by decide) (by decide) (by decide)⟩
